import Mathlib

/-!
Verification of the Echo voice-note application core logic.

Shallow embedding of the lifecycle/scheduling code of the repository:
the vault partition (`processEchoData`), the lock-duration computation
(`calculateUnlockDate`, JS `Date.setDate` calendar arithmetic), the
countdown rendering (`getTimeUntilUnlock`), notification scheduling
(`scheduleUnlockNotification`), the local audio-asset copy (`uploadAudio`)
and the local record store (`saveEchoRecord` / `getEchoes`).

Timestamps carried by records are modelled as integer epoch milliseconds
(JS `Date.getTime` of the ISO strings stored by the app).  JS calendar
dates manipulated with `setDate` are modelled by the `JSDate` structure
(local calendar date plus milliseconds into the day).  `Math.random` is
modelled as a rational draw in `[0, 1)` passed explicitly to the function
that consumes it.  JS string falsiness (`!s` is true for the empty string)
is modelled explicitly wherever the source relies on it.
-/

namespace Echo

/-- `EchoRecord` from `lib/supabase.ts`: `id?: string; user_id: string;
audio_url: string; created_at?: string; unlock_at: string; mood_tag?: string`.
The two timestamp strings are modelled as epoch milliseconds; `unlock_at` is
`Option` so that an absent/empty/unparseable value (checked at runtime by
`scheduleUnlockNotification`) is representable. -/
structure EchoRecord where
  id : Option String
  user_id : String
  audio_url : String
  created_at : Option Int
  unlock_at : Option Int
  mood_tag : Option String
deriving DecidableEq

/-! ## Vault partition (`processEchoData`, `screens/VaultScreen/index.tsx`) -/

/-- The comparison `new Date(echo.unlock_at) <= now` from `processEchoData`.
A missing `unlock_at` would give an Invalid Date (`NaN`), and `NaN <= now`
is false in JS, so such a record lands in `locked`. -/
def echoAvailable (echo : EchoRecord) (now : Int) : Bool :=
  match echo.unlock_at with
  | some t => decide (t ≤ now)
  | none => false

/-- Core of `processEchoData`: the `forEach` loop pushing each record onto
`available` when `unlockDate <= now` and onto `locked` otherwise, preserving
input order in both outputs. -/
def processEchoData (data : List EchoRecord) (now : Int) :
    List EchoRecord × List EchoRecord :=
  data.partition (fun echo => echoAvailable echo now)

/-! ## Countdown rendering (`getTimeUntilUnlock`, `screens/VaultScreen/index.tsx`) -/

/-- `Math.ceil (a / b)` for nonnegative integer `a` and positive integer `b`
(the source divides epoch-millisecond differences by `1000*60*60*24` and
`1000*60*60`; we model the float division and ceiling exactly). -/
def ceilDiv (a b : Nat) : Nat := (a + b - 1) / b

def msPerHour : Nat := 1000 * 60 * 60

def msPerDay : Nat := 1000 * 60 * 60 * 24

/-- `getTimeUntilUnlock`: `diffTime = Math.abs(unlockAt - now)`,
`diffDays = ceil(diffTime/day)`; render days when `diffDays > 1`, otherwise
hours when `ceil(diffTime/hour) > 1`, otherwise the literal string. -/
def getTimeUntilUnlock (unlockAt now : Int) : String :=
  let diffTime : Nat := (unlockAt - now).natAbs
  let diffDays : Nat := ceilDiv diffTime msPerDay
  if diffDays > 1 then
    toString diffDays ++ (" days")
  else
    let diffHours : Nat := ceilDiv diffTime msPerHour
    if diffHours > 1 then toString diffHours ++ (" hours")
    else ("Less than an hour")

/-! ## Notification scheduling (`services/notificationService.ts`) -/

/-- Result of `Notifications.scheduleNotificationAsync` as used by
`scheduleUnlockNotification`: the returned identifier, the one-shot
trigger date, and the `echoId` payload placed in `content.data`. -/
structure ScheduledNotification where
  notificationId : String
  triggerDate : Int
  echoId : String
deriving DecidableEq

/-- JS falsiness of an optional string field: `!x` is true when the field
is absent or the empty string. -/
def jsFalsyStr : Option String → Bool
  | none => true
  | some s => s == ""

/-- `scheduleUnlockNotification`: returns `null` when `!echo.id ||
!echo.unlock_at` (absent or empty), or when `unlockDate <= now`; otherwise
schedules a one-shot alert at the unlock date carrying the echo id and
returns its identifier (`freshId` models the platform-generated id). -/
def scheduleUnlockNotification (echo : EchoRecord) (now : Int)
    (freshId : String) : Option ScheduledNotification :=
  if jsFalsyStr echo.id || echo.unlock_at.isNone then none
  else
    match echo.id, echo.unlock_at with
    | some i, some t =>
        if t ≤ now then none
        else some ⟨freshId, t, i⟩
    | _, _ => none

/-! ## Audio asset copy (`uploadAudio`, local version in `lib/supabase.ts`) -/

/-- `FileSystem.documentDirectory`. -/
def documentDirectory : String := "documents/"

/-- `AUDIO_DIRECTORY = FileSystem.documentDirectory + 'audio/'`. -/
def AUDIO_DIRECTORY : String := documentDirectory ++ ("audio/")

/-- `uploadAudio`: the filesystem is a list of `(path, size)` pairs.  The
source checks `getInfoAsync(uri).exists` and throws (caught, `null`) when
the file is missing; it logs but never checks the size, then copies the
file to `AUDIO_DIRECTORY + fileName` and returns that destination path. -/
def uploadAudio (fs : List (String × Nat)) (uri : String)
    (fileName : String) : Option String × List (String × Nat) :=
  match fs.lookup uri with
  | none => (none, fs)
  | some size =>
      (some (AUDIO_DIRECTORY ++ fileName),
       fs ++ [(AUDIO_DIRECTORY ++ fileName, size)])

/-! ## Local record store (`saveEchoRecord` / `getEchoes`, `lib/supabase.ts`) -/

/-- JS `a || b` on an optional string: the default is used when the value
is absent or the empty string (both falsy). -/
def jsOrStr (o : Option String) (dflt : String) : String :=
  match o with
  | some s => if s == "" then dflt else s
  | none => dflt

/-- `saveEchoRecord` (local version): reads the stored list, builds
`newRecord = { ...record, id: record.id || generateUUID(), created_at:
record.created_at || new Date().toISOString() }`, pushes it at the end,
writes the list back, and returns `true`.  The generated UUID and the
current time are explicit inputs (`uuid`, `nowTs`). -/
def saveEchoRecord (record : EchoRecord) (store : List EchoRecord)
    (uuid : String) (nowTs : Int) : Bool × List EchoRecord :=
  let newRecord : EchoRecord :=
    { record with
        id := some (jsOrStr record.id uuid)
        created_at := some (record.created_at.getD nowTs) }
  (true, store ++ [newRecord])

/-! ## Lock-duration computation (`calculateUnlockDate`, `EchoLockScreen`)

JS `Date` objects mutated with `setDate(getDate() + n)` perform calendar-day
arithmetic in the local calendar: the day-of-month is set to an overflowed
value and the date normalises forward through month and year boundaries,
keeping the local time-of-day untouched.  `JSDate` models exactly that: a
proleptic Gregorian local date plus milliseconds into the day. -/

/-- A JS `Date` viewed in local time: `getFullYear`, `getMonth` (0-11),
`getDate` (1-based day of month) and the milliseconds elapsed in the day. -/
structure JSDate where
  year : Int
  month : Nat
  day : Nat
  msOfDay : Nat
deriving DecidableEq

/-- Gregorian leap-year rule, as implemented by JS `Date`. -/
def isLeap (y : Int) : Bool :=
  y % 4 == 0 && (y % 100 != 0 || y % 400 == 0)

/-- Length of month `m` (JS numbering, 0 = January) of year `y`.
Arguments `m ≥ 12` never arise from a valid date; they are given the junk
value 31 to keep the function total. -/
def daysInMonth (y : Int) (m : Nat) : Nat :=
  match m with
  | 1 => if isLeap y then 29 else 28
  | 3 => 30
  | 5 => 30
  | 8 => 30
  | 10 => 30
  | _ => 31

/-- The month after `(y, m)`: December rolls into January of the next year. -/
def nextMonth (y : Int) (m : Nat) : Int × Nat :=
  if m = 11 then (y + 1, 0) else (y, m + 1)

/-- Normalisation performed by JS `setDate` when the day-of-month overflows:
while the day exceeds the current month length, subtract the month length
and advance one month.  Terminates because the day count strictly drops. -/
def normDayJS (d : JSDate) : JSDate :=
  if d.day ≤ daysInMonth d.year d.month then d
  else
    normDayJS ⟨(nextMonth d.year d.month).1, (nextMonth d.year d.month).2,
               d.day - daysInMonth d.year d.month, d.msOfDay⟩
termination_by d.day
decreasing_by
  have hpos : 0 < daysInMonth d.year d.month := by
    unfold daysInMonth
    split <;> (try split) <;> omega
  omega

/-- `const u = new Date(now); u.setDate(u.getDate() + n)`. -/
def setDateAdd (d : JSDate) (n : Nat) : JSDate :=
  normDayJS ⟨d.year, d.month, d.day + n, d.msOfDay⟩

/-- The calendar successor of a date: bump the day, rolling into the next
month (and year) when the month is exhausted.  This is the specification
notion of "one calendar day later". -/
def nextDay (d : JSDate) : JSDate :=
  if d.day < daysInMonth d.year d.month then
    ⟨d.year, d.month, d.day + 1, d.msOfDay⟩
  else
    ⟨(nextMonth d.year d.month).1, (nextMonth d.year d.month).2, 1, d.msOfDay⟩

/-- Specification-side definition of "`now` plus `n` calendar days": the
`n`-fold iterate of the calendar successor. -/
def addCalendarDays : Nat → JSDate → JSDate
  | 0, d => d
  | n + 1, d => nextDay (addCalendarDays n d)

/-- A well-formed local date: month in range and day within the month. -/
def ValidDate (d : JSDate) : Prop :=
  d.month < 12 ∧ 1 ≤ d.day ∧ d.day ≤ daysInMonth d.year d.month

instance (d : JSDate) : Decidable (ValidDate d) := by
  unfold ValidDate; infer_instance

/-- The `UnlockOption` interface of `EchoLockScreen`: `days` is `null` for
the random option, `isRandom` is absent (falsy) except on the random one. -/
structure UnlockOption where
  id : String
  label : String
  days : Option Nat
  isRandom : Bool
deriving DecidableEq

/-- The `unlockOptions` array offered by `EchoLockScreen`. -/
def unlockOptions : List UnlockOption :=
  [⟨("1day"), ("Unlock in 1 day"), some 1, false⟩,
   ⟨("7days"), ("Unlock in 7 days"), some 7, false⟩,
   ⟨("30days"), ("Unlock in 30 days"), some 30, false⟩,
   ⟨("random"), ("Random unlock between 1-30 days"), none, true⟩]

/-- `Math.floor(Math.random() * 30) + 1` with the draw `r ∈ [0, 1)` made
explicit. -/
def randomDaysToAdd (r : ℚ) : Nat := (Int.floor (r * 30) + 1).toNat

/-- `calculateUnlockDate`: pick the day count (random draw for the random
option, `option.days || 0` otherwise) and add it with `setDate`. -/
def calculateUnlockDate (option : UnlockOption) (rand : ℚ)
    (now : JSDate) : JSDate :=
  let daysToAdd : Nat :=
    if option.isRandom then randomDaysToAdd rand else option.days.getD 0
  setDateAdd now daysToAdd

/-! ## Save flow (`handleConfirm`, `EchoLockScreen`, Supabase version) -/

/-- Epoch-day number of a `JSDate`, used to model `Date.toISOString` /
`getTime` as epoch milliseconds (1970-01-01 is day 0). -/
def daysBeforeMonth (y : Int) : Nat → Nat
  | 0 => 0
  | m + 1 => daysBeforeMonth y m + daysInMonth y m

def daysSinceEpoch (y : Int) (m : Nat) (day : Nat) : Int :=
  365 * (y - 1970) + ((y - 1).fdiv 4 - 492) - ((y - 1).fdiv 100 - 19)
    + ((y - 1).fdiv 400 - 4) + (daysBeforeMonth y m : Int) + ((day : Int) - 1)

/-- `Date.getTime` in epoch milliseconds for a local `JSDate` (the model
ignores timezone offsets). -/
def toTimestamp (d : JSDate) : Int :=
  daysSinceEpoch d.year d.month d.day * 86400000 + (d.msOfDay : Int)

/-- Outcome of one run of `handleConfirm`: the record passed to
`saveEchoRecord` (if that call was reached at all) and whether the flow
completed without throwing. -/
structure ConfirmResult where
  savedRecord : Option EchoRecord
  success : Bool
deriving DecidableEq

/-- `handleConfirm` (Supabase `EchoLockScreen`): abort when no option is
selected or the id is unknown; compute the unlock date; call `uploadAudio`
(its outcome is the input `uploadOutcome`); when it returns `null`, throw —
caught by the surrounding `try`, so `saveEchoRecord` is never reached;
otherwise build `echoData` around the returned URL and call
`saveEchoRecord` (outcome `saveOutcome`). -/
def handleConfirm (selectedOption : Option String)
    (uploadOutcome : Option String) (saveOutcome : Bool)
    (rand : ℚ) (now : JSDate) : ConfirmResult :=
  match selectedOption with
  | none => ⟨none, false⟩
  | some sel =>
    match unlockOptions.find? (fun o => o.id == sel) with
    | none => ⟨none, false⟩
    | some selectedOptionObj =>
      let unlockDate := calculateUnlockDate selectedOptionObj rand now
      match uploadOutcome with
      | none => ⟨none, false⟩
      | some audioUrl =>
        let echoData : EchoRecord :=
          { id := none
            user_id := "anonymous_user"
            audio_url := audioUrl
            created_at := some (toTimestamp now)
            unlock_at := some (toTimestamp unlockDate)
            mood_tag := none }
        ⟨some echoData, saveOutcome⟩

/-- Sort key used by `getEchoes`: `new Date(r.created_at || '').getTime()`.
An absent `created_at` parses to an Invalid Date; we model that corner as
epoch 0 (the resulting order is unspecified in JS; only the fact that
sorting permutes the list matters to the properties proved here). -/
def createdKey (r : EchoRecord) : Int := r.created_at.getD 0

/-- `getEchoes`: filter the stored records by `user_id === userId`, then
sort by `created_at` descending (newest first). -/
def getEchoes (userId : String) (store : List EchoRecord) :
    List EchoRecord :=
  let userRecords := store.filter (fun r => r.user_id == userId)
  List.insertionSort (fun a b => createdKey b ≤ createdKey a) userRecords

/-! ## Helper lemmas: `setDate` normalisation is calendar-day addition -/

theorem daysInMonth_pos (y : Int) (m : Nat) : 0 < daysInMonth y m := by
  unfold daysInMonth
  split <;> (try split) <;> omega

theorem normDayJS_base (y : Int) (m : Nat) (day ms : Nat)
    (h : day ≤ daysInMonth y m) :
    normDayJS ⟨y, m, day, ms⟩ = ⟨y, m, day, ms⟩ := by
  rw [normDayJS]
  simp only [if_pos h]

theorem normDayJS_step (y : Int) (m : Nat) (day ms : Nat)
    (h : ¬ day ≤ daysInMonth y m) :
    normDayJS ⟨y, m, day, ms⟩ =
      normDayJS ⟨(nextMonth y m).1, (nextMonth y m).2,
                 day - daysInMonth y m, ms⟩ := by
  rw [normDayJS]
  simp only [if_neg h]

/-- One extra day before normalisation is one calendar successor after it. -/
theorem normDayJS_succ (day : Nat) :
    ∀ (y : Int) (m : Nat) (ms : Nat),
      normDayJS ⟨y, m, day + 1, ms⟩ = nextDay (normDayJS ⟨y, m, day, ms⟩) := by
  induction day using Nat.strong_induction_on with
  | _ day ih =>
    intro y m ms
    by_cases h1 : day + 1 ≤ daysInMonth y m
    · have h0 : day ≤ daysInMonth y m := by omega
      rw [normDayJS_base y m (day + 1) ms h1, normDayJS_base y m day ms h0,
          nextDay]
      have h2 : day < daysInMonth y m := by omega
      simp only [if_pos h2]
    · by_cases h2 : day ≤ daysInMonth y m
      · -- day = daysInMonth y m: the successor rolls into the next month
        have harg : day + 1 - daysInMonth y m = 1 := by omega
        rw [normDayJS_step y m (day + 1) ms h1, harg,
            normDayJS_base _ _ 1 ms
              (daysInMonth_pos (nextMonth y m).1 (nextMonth y m).2),
            normDayJS_base y m day ms h2, nextDay]
        have h3 : ¬ day < daysInMonth y m := by omega
        simp only [if_neg h3]
      · -- both sides take one normalisation step; recurse on a smaller day
        have hpos := daysInMonth_pos y m
        have harg : day + 1 - daysInMonth y m = (day - daysInMonth y m) + 1 := by
          omega
        rw [normDayJS_step y m (day + 1) ms h1, harg,
            normDayJS_step y m day ms h2]
        exact ih (day - daysInMonth y m) (by omega) _ _ ms

/-- `setDate(getDate() + n)` on a valid date adds exactly `n` calendar
days. -/
theorem setDateAdd_eq_addCalendarDays (d : JSDate) (hv : ValidDate d)
    (n : Nat) : setDateAdd d n = addCalendarDays n d := by
  induction n with
  | zero =>
    show normDayJS ⟨d.year, d.month, d.day + 0, d.msOfDay⟩ = d
    rw [Nat.add_zero, normDayJS_base d.year d.month d.day d.msOfDay hv.2.2]
  | succ n ihn =>
    show normDayJS ⟨d.year, d.month, d.day + (n + 1), d.msOfDay⟩ =
      addCalendarDays (n + 1) d
    have harg : d.day + (n + 1) = (d.day + n) + 1 := by omega
    rw [harg, normDayJS_succ (d.day + n) d.year d.month d.msOfDay]
    show nextDay (setDateAdd d n) = addCalendarDays (n + 1) d
    rw [ihn]
    rfl

/-- Calendar-day addition never touches the time-of-day. -/
theorem addCalendarDays_msOfDay (n : Nat) (d : JSDate) :
    (addCalendarDays n d).msOfDay = d.msOfDay := by
  induction n with
  | zero => rfl
  | succ n ihn =>
    show (nextDay (addCalendarDays n d)).msOfDay = d.msOfDay
    unfold nextDay
    split <;> simpa using ihn

/-! ## Helper lemmas: the random draw -/

theorem randomDaysToAdd_range (r : ℚ) (h0 : 0 ≤ r) (h1 : r < 1) :
    1 ≤ randomDaysToAdd r ∧ randomDaysToAdd r ≤ 30 := by
  have hf0 : (0 : ℤ) ≤ Int.floor (r * 30) :=
    Int.floor_nonneg.mpr (mul_nonneg h0 (by norm_num))
  have hf30 : Int.floor (r * 30) < 30 := by
    rw [Int.floor_lt]
    push_cast
    linarith
  unfold randomDaysToAdd
  omega

/-- The set of draws mapped to offset `k` is exactly the half-open interval
`[(k-1)/30, k/30)`: all 30 fibers are intervals of the same length. -/
theorem randomDaysToAdd_fiber (k : Nat) (hk1 : 1 ≤ k) (hk30 : k ≤ 30) :
    {q : ℚ | 0 ≤ q ∧ q < 1 ∧ randomDaysToAdd q = k}
      = Set.Ico (((k : ℚ) - 1) / 30) ((k : ℚ) / 30) := by
  have h30 : (0 : ℚ) < 30 := by norm_num
  ext q
  simp only [Set.mem_setOf_eq, Set.mem_Ico]
  constructor
  · rintro ⟨hq0, hq1, heq⟩
    have hf0 : (0 : ℤ) ≤ Int.floor (q * 30) :=
      Int.floor_nonneg.mpr (mul_nonneg hq0 (by norm_num))
    have hfk : Int.floor (q * 30) = (k : ℤ) - 1 := by
      unfold randomDaysToAdd at heq
      omega
    have h2 := Int.floor_eq_iff.mp hfk
    push_cast at h2
    constructor
    · rw [div_le_iff₀ h30]
      linarith [h2.1]
    · rw [lt_div_iff₀ h30]
      linarith [h2.2]
  · rintro ⟨hlo, hhi⟩
    have ha : ((k : ℚ) - 1) ≤ q * 30 := by
      rw [div_le_iff₀ h30] at hlo
      linarith
    have hb : q * 30 < (k : ℚ) := by
      rw [lt_div_iff₀ h30] at hhi
      linarith
    have hk1Q : (1 : ℚ) ≤ (k : ℚ) := by exact_mod_cast hk1
    have hk30Q : ((k : ℚ)) ≤ 30 := by exact_mod_cast hk30
    have hq0 : 0 ≤ q := by linarith
    have hq1 : q < 1 := by linarith
    refine ⟨hq0, hq1, ?_⟩
    have hfl : Int.floor (q * 30) = (k : ℤ) - 1 := by
      rw [Int.floor_eq_iff]
      constructor
      · push_cast
        linarith
      · push_cast
        linarith
    unfold randomDaysToAdd
    rw [hfl]
    omega

/-! ## Claim theorems -/

/-- Claim C1: `processEchoData` places a record in `available` iff its
`unlock_at` is at most `now`, and in `locked` otherwise; the partition is
exhaustive and disjoint, and `available ++ locked` is a permutation (same
multiset) of the input. -/
theorem processEchoData_partitions (data : List EchoRecord) (now : Int) :
    ((processEchoData data now).1 ++ (processEchoData data now).2).Perm data
    ∧ (∀ e ∈ data,
        e ∈ (processEchoData data now).1 ∨ e ∈ (processEchoData data now).2)
    ∧ (∀ e, ¬ (e ∈ (processEchoData data now).1
        ∧ e ∈ (processEchoData data now).2))
    ∧ ∀ e t, e.unlock_at = some t →
        ((e ∈ (processEchoData data now).1 ↔ e ∈ data ∧ t ≤ now)
          ∧ (e ∈ (processEchoData data now).2 ↔ e ∈ data ∧ ¬ t ≤ now)) := by
  unfold processEchoData
  rw [List.partition_eq_filter_filter]
  refine ⟨?_, ?_, ?_, ?_⟩
  · simpa using List.filter_append_perm (fun echo => echoAvailable echo now) data
  · intro e he
    by_cases h : echoAvailable e now
    · exact Or.inl (List.mem_filter.mpr ⟨he, h⟩)
    · exact Or.inr (List.mem_filter.mpr ⟨he, by simp [h]⟩)
  · rintro e ⟨h1, h2⟩
    have ha := (List.mem_filter.mp h1).2
    have hb := (List.mem_filter.mp h2).2
    simp [ha] at hb
  · intro e t ht
    have hav : echoAvailable e now = decide (t ≤ now) := by
      simp [echoAvailable, ht]
    constructor
    · rw [List.mem_filter, hav]
      simp
    · rw [List.mem_filter]
      simp [Function.comp, hav]

/-- Witness for C1 at a concrete two-record vault. -/
theorem processEchoData_partitions_witness :
    ((⟨none, ("u"), ("a1"), none, some 5, none⟩ : EchoRecord) ∈
        (processEchoData [⟨none, ("u"), ("a1"), none, some 5, none⟩,
                          ⟨none, ("u"), ("a2"), none, some 100, none⟩] 10).1
      ↔ (⟨none, ("u"), ("a1"), none, some 5, none⟩ : EchoRecord) ∈
          [(⟨none, ("u"), ("a1"), none, some 5, none⟩ : EchoRecord),
           ⟨none, ("u"), ("a2"), none, some 100, none⟩] ∧ (5 : Int) ≤ 10)
    ∧ ((⟨none, ("u"), ("a1"), none, some 5, none⟩ : EchoRecord) ∈
        (processEchoData [⟨none, ("u"), ("a1"), none, some 5, none⟩,
                          ⟨none, ("u"), ("a2"), none, some 100, none⟩] 10).2
      ↔ (⟨none, ("u"), ("a1"), none, some 5, none⟩ : EchoRecord) ∈
          [(⟨none, ("u"), ("a1"), none, some 5, none⟩ : EchoRecord),
           ⟨none, ("u"), ("a2"), none, some 100, none⟩] ∧ ¬ (5 : Int) ≤ 10) :=
  (processEchoData_partitions
      [⟨none, ("u"), ("a1"), none, some 5, none⟩,
       ⟨none, ("u"), ("a2"), none, some 100, none⟩] 10).2.2.2
    ⟨none, ("u"), ("a1"), none, some 5, none⟩ 5 rfl

/-- Claim C2: for a fixed policy option (`days = some P`, not random) and
any valid current date, `calculateUnlockDate` yields exactly `now` plus `P`
calendar days with the time-of-day unchanged. -/
theorem calculateUnlockDate_fixed_policy (opt : UnlockOption) (P : Nat)
    (hmem : opt ∈ unlockOptions) (hfix : opt.isRandom = false)
    (hdays : opt.days = some P) (rand : ℚ) (now : JSDate)
    (hval : ValidDate now) :
    calculateUnlockDate opt rand now = addCalendarDays P now
    ∧ (calculateUnlockDate opt rand now).msOfDay = now.msOfDay := by
  have hcalc : calculateUnlockDate opt rand now = setDateAdd now P := by
    simp [calculateUnlockDate, hfix, hdays]
  refine ⟨?_, ?_⟩
  · rw [hcalc]
    exact setDateAdd_eq_addCalendarDays now hval P
  · rw [hcalc, setDateAdd_eq_addCalendarDays now hval P,
        addCalendarDays_msOfDay]

/-- Witness for C2: the 7-day policy applied on 2024-01-28. -/
theorem calculateUnlockDate_fixed_policy_witness :
    calculateUnlockDate ⟨("7days"), ("Unlock in 7 days"), some 7, false⟩ 0
        ⟨2024, 0, 28, 123⟩
      = addCalendarDays 7 ⟨2024, 0, 28, 123⟩
    ∧ (calculateUnlockDate ⟨("7days"), ("Unlock in 7 days"), some 7, false⟩ 0
        ⟨2024, 0, 28, 123⟩).msOfDay = 123 :=
  calculateUnlockDate_fixed_policy
    ⟨("7days"), ("Unlock in 7 days"), some 7, false⟩ 7 (by decide) rfl rfl 0
    ⟨2024, 0, 28, 123⟩ (by decide)

/-- Claim C3: for a locked record (`now ≤ unlockAt`) the rendering follows
the ceiling rules of the spec, and the three quoted examples (25 hours →
"2 days", 90 minutes → "2 hours", 30 minutes → "Less than an hour") hold
for every `now`. -/
theorem getTimeUntilUnlock_spec (unlockAt now : Int) :
    (now ≤ unlockAt →
      getTimeUntilUnlock unlockAt now =
        if ceilDiv (unlockAt - now).toNat msPerDay > 1 then
          toString (ceilDiv (unlockAt - now).toNat msPerDay) ++ (" days")
        else if ceilDiv (unlockAt - now).toNat msPerHour > 1 then
          toString (ceilDiv (unlockAt - now).toNat msPerHour) ++ (" hours")
        else ("Less than an hour"))
    ∧ getTimeUntilUnlock (now + 90000000) now = ("2 days")
    ∧ getTimeUntilUnlock (now + 5400000) now = ("2 hours")
    ∧ getTimeUntilUnlock (now + 1800000) now = ("Less than an hour") := by
  refine ⟨?_, ?_, ?_, ?_⟩
  · intro h
    have habs : (unlockAt - now).natAbs = (unlockAt - now).toNat := by omega
    simp only [getTimeUntilUnlock, habs]
  · have habs : (now + 90000000 - now).natAbs = 90000000 := by omega
    simp only [getTimeUntilUnlock, habs]
    norm_num [ceilDiv, msPerDay, msPerHour]
    rfl
  · have habs : (now + 5400000 - now).natAbs = 5400000 := by omega
    simp only [getTimeUntilUnlock, habs]
    norm_num [ceilDiv, msPerDay, msPerHour]
    rfl
  · have habs : (now + 1800000 - now).natAbs = 1800000 := by omega
    simp only [getTimeUntilUnlock, habs]
    norm_num [ceilDiv, msPerDay, msPerHour]

/-- Witness for C3 at `unlockAt = 25 hours`, `now = 0`. -/
theorem getTimeUntilUnlock_spec_witness :
    getTimeUntilUnlock 90000000 0 =
      if ceilDiv ((90000000 : Int) - 0).toNat msPerDay > 1 then
        toString (ceilDiv ((90000000 : Int) - 0).toNat msPerDay) ++ (" days")
      else if ceilDiv ((90000000 : Int) - 0).toNat msPerHour > 1 then
        toString (ceilDiv ((90000000 : Int) - 0).toNat msPerHour) ++ (" hours")
      else ("Less than an hour") :=
  (getTimeUntilUnlock_spec 90000000 0).1 (by norm_num)

/-- Claim C4: the random policy adds a whole-day offset
`randomDaysToAdd r` that always lies in `[1, 30]`, and a uniform draw
`r ∈ [0, 1)` selects each of the 30 offsets with equal probability: the
fiber of each `k ∈ [1, 30]` is the interval `[(k-1)/30, k/30)`, of length
`1/30`. -/
theorem calculateUnlockDate_random_policy (opt : UnlockOption)
    (hmem : opt ∈ unlockOptions) (hrand : opt.isRandom = true)
    (r : ℚ) (h0 : 0 ≤ r) (h1 : r < 1) (now : JSDate) (hval : ValidDate now) :
    (1 ≤ randomDaysToAdd r ∧ randomDaysToAdd r ≤ 30
      ∧ calculateUnlockDate opt r now
          = addCalendarDays (randomDaysToAdd r) now)
    ∧ ∀ k : Nat, 1 ≤ k → k ≤ 30 →
        {q : ℚ | 0 ≤ q ∧ q < 1 ∧ randomDaysToAdd q = k}
          = Set.Ico (((k : ℚ) - 1) / 30) ((k : ℚ) / 30)
        ∧ (k : ℚ) / 30 - ((k : ℚ) - 1) / 30 = 1 / 30 := by
  obtain ⟨hr1, hr30⟩ := randomDaysToAdd_range r h0 h1
  refine ⟨⟨hr1, hr30, ?_⟩, ?_⟩
  · have hcalc : calculateUnlockDate opt r now
        = setDateAdd now (randomDaysToAdd r) := by
      simp [calculateUnlockDate, hrand]
    rw [hcalc]
    exact setDateAdd_eq_addCalendarDays now hval (randomDaysToAdd r)
  · intro k hk1 hk30
    exact ⟨randomDaysToAdd_fiber k hk1 hk30, by ring⟩

/-- Witness for C4 at the draw `r = 1/2` on 2024-01-15. -/
theorem calculateUnlockDate_random_policy_witness :
    1 ≤ randomDaysToAdd (1 / 2) ∧ randomDaysToAdd (1 / 2) ≤ 30
    ∧ calculateUnlockDate
        ⟨("random"), ("Random unlock between 1-30 days"), none, true⟩
        (1 / 2) ⟨2024, 0, 15, 0⟩
      = addCalendarDays (randomDaysToAdd (1 / 2)) ⟨2024, 0, 15, 0⟩ :=
  (calculateUnlockDate_random_policy
      ⟨("random"), ("Random unlock between 1-30 days"), none, true⟩
      (by decide) rfl (1 / 2) (by norm_num) (by norm_num)
      ⟨2024, 0, 15, 0⟩ (by decide)).1

/-- Counterexample to claim C5 as stated: an Echo whose id is present (the
empty string) and whose unlock time is strictly in the future is still
rejected with `null`, because `!echo.id` is true in JS for the empty
string. -/
theorem scheduleUnlockNotification_empty_id_cex :
    (⟨some (""), ("u"), ("a.mp3"), none, some 10, none⟩
        : EchoRecord).id.isSome = true
    ∧ ((0 : Int) < 10)
    ∧ scheduleUnlockNotification
        ⟨some (""), ("u"), ("a.mp3"), none, some 10, none⟩ 0 ("n1") = none := by
  refine ⟨rfl, by norm_num, by decide⟩

/-- Claim C5 (amended): `scheduleUnlockNotification` returns `null` exactly
when the id is absent or empty, the unlock time is absent, or the unlock
time is not strictly in the future; otherwise it returns the identifier of
a one-shot alert at the unlock timestamp whose payload carries the id. -/
theorem scheduleUnlockNotification_characterization (echo : EchoRecord)
    (now : Int) (freshId : String) :
    (scheduleUnlockNotification echo now freshId = none ↔
      echo.id = none ∨ echo.id = some ("") ∨ echo.unlock_at = none
        ∨ ∃ t, echo.unlock_at = some t ∧ t ≤ now)
    ∧ ∀ i t, echo.id = some i → i ≠ "" → echo.unlock_at = some t → now < t →
        scheduleUnlockNotification echo now freshId
          = some ⟨freshId, t, i⟩ := by
  constructor
  · unfold scheduleUnlockNotification
    rcases hid : echo.id with _ | i <;> rcases hu : echo.unlock_at with _ | t <;>
        simp [jsFalsyStr, hid, hu]
    by_cases hi : i = "" <;> by_cases ht : t ≤ now <;> simp [hi, ht]
  · intro i t hi hne hu hlt
    unfold scheduleUnlockNotification
    rw [hi, hu]
    have h1 : (i == "") = false := by simp [hne]
    have h2 : ¬ t ≤ now := by omega
    simp [jsFalsyStr, h1, h2]

/-- Witness for C5 on a well-formed future-locked Echo. -/
theorem scheduleUnlockNotification_characterization_witness :
    scheduleUnlockNotification
        ⟨some ("x"), ("u"), ("a.mp3"), none, some 100, none⟩ 0 ("n1")
      = some ⟨("n1"), 100, ("x")⟩ :=
  (scheduleUnlockNotification_characterization
      ⟨some ("x"), ("u"), ("a.mp3"), none, some 100, none⟩ 0 ("n1")).2
    ("x") 100 rfl (by decide) rfl (by norm_num)

/-- Claim C6: when the audio asset transfer fails (`uploadAudio` returns
`null`), `handleConfirm` never reaches `saveEchoRecord` — no record is
persisted; and any record that is passed to `saveEchoRecord` carries the
URL of a successful upload. -/
theorem handleConfirm_aborts_on_upload_failure (selectedOption : Option String)
    (uploadOutcome : Option String) (saveOutcome : Bool) (rand : ℚ)
    (now : JSDate) :
    (uploadOutcome = none →
      (handleConfirm selectedOption uploadOutcome saveOutcome
          rand now).savedRecord = none)
    ∧ ∀ rec, (handleConfirm selectedOption uploadOutcome saveOutcome
          rand now).savedRecord = some rec →
        ∃ url, uploadOutcome = some url ∧ rec.audio_url = url := by
  rcases selectedOption with _ | sel
  · simp [handleConfirm]
  · rcases hfind : unlockOptions.find? (fun o => o.id == sel) with _ | opt <;>
      rcases huo : uploadOutcome with _ | url <;>
        simp [handleConfirm, hfind, huo]

/-- Witness for C6: upload failure on the selected 1-day option. -/
theorem handleConfirm_aborts_on_upload_failure_witness :
    (handleConfirm (some ("1day")) none true 0
        ⟨2024, 0, 1, 0⟩).savedRecord = none :=
  (handleConfirm_aborts_on_upload_failure (some ("1day")) none true 0
      ⟨2024, 0, 1, 0⟩).1 rfl

/-- Counterexample to claim C7 as stated: `saveEchoRecord` returns the
boolean `true`, not the assigned id — two runs assigning different fresh
ids return identical values to the caller while persisting different
records, so the assigned id is not caller-visible in the return value. -/
theorem saveEchoRecord_returns_flag_cex :
    (saveEchoRecord ⟨none, ("u"), ("a.mp3"), none, some 5, none⟩ []
        ("id-A") 0).1
      = (saveEchoRecord ⟨none, ("u"), ("a.mp3"), none, some 5, none⟩ []
        ("id-B") 0).1
    ∧ (saveEchoRecord ⟨none, ("u"), ("a.mp3"), none, some 5, none⟩ []
        ("id-A") 0).2
      ≠ (saveEchoRecord ⟨none, ("u"), ("a.mp3"), none, some 5, none⟩ []
        ("id-B") 0).2 := by
  constructor <;> decide

/-- Claim C7 (amended): `saveEchoRecord` returns the success flag `true`
(not the id); the persisted record gets a fresh id exactly when the input
id is absent or empty, a creation timestamp exactly when absent, and keeps
every other supplied field as given. -/
theorem saveEchoRecord_contract (record : EchoRecord)
    (store : List EchoRecord) (uuid : String) (nowTs : Int) :
    (saveEchoRecord record store uuid nowTs).1 = true
    ∧ ∃ nr, (saveEchoRecord record store uuid nowTs).2 = store ++ [nr]
        ∧ nr.user_id = record.user_id
        ∧ nr.audio_url = record.audio_url
        ∧ nr.unlock_at = record.unlock_at
        ∧ nr.mood_tag = record.mood_tag
        ∧ ((record.id = none ∨ record.id = some ("")) → nr.id = some uuid)
        ∧ (∀ s, record.id = some s → s ≠ "" → nr.id = some s)
        ∧ (record.created_at = none → nr.created_at = some nowTs)
        ∧ (∀ c, record.created_at = some c → nr.created_at = some c) := by
  refine ⟨rfl, ⟨{ record with
                    id := some (jsOrStr record.id uuid)
                    created_at := some (record.created_at.getD nowTs) },
                rfl, rfl, rfl, rfl, rfl, ?_, ?_, ?_, ?_⟩⟩
  · rintro (h | h) <;> simp [jsOrStr, h]
  · intro s hs hne
    simp [jsOrStr, hs, hne]
  · intro h
    simp [h]
  · intro c hc
    simp [hc]

/-- Witness for C7 on a record with no supplied id. -/
theorem saveEchoRecord_contract_witness :
    (saveEchoRecord ⟨none, ("u"), ("a.mp3"), none, some 5, none⟩ []
        ("fresh") 0).1 = true :=
  (saveEchoRecord_contract ⟨none, ("u"), ("a.mp3"), none, some 5, none⟩ []
      ("fresh") 0).1

/-- Counterexample to claim C8 as stated: a record that supplies the empty
string as its id is re-assigned a fresh id by `record.id || generateUUID()`,
so the listed record's id differs from the supplied one. -/
theorem save_then_list_empty_id_cex :
    getEchoes ("u")
        (saveEchoRecord ⟨some (""), ("u"), ("a.mp3"), none, some 5, none⟩ []
          ("fresh-id") 0).2
      = [⟨some ("fresh-id"), ("u"), ("a.mp3"), some 0, some 5, none⟩]
    ∧ (some ("fresh-id") : Option String) ≠ some ("") := by
  constructor <;> decide

/-- Claim C8 (amended): after a successful save, `getEchoes` for the
record's owner contains a record matching the saved `audio_url`,
`unlock_at` and `mood_tag`, whose id agrees whenever a non-empty id was
supplied and whose creation timestamp agrees whenever one was supplied. -/
theorem save_then_list_roundtrip (record : EchoRecord)
    (store : List EchoRecord) (uuid : String) (nowTs : Int) (userId : String)
    (huser : record.user_id = userId) :
    ∃ nr ∈ getEchoes userId (saveEchoRecord record store uuid nowTs).2,
      nr.audio_url = record.audio_url
      ∧ nr.unlock_at = record.unlock_at
      ∧ nr.mood_tag = record.mood_tag
      ∧ (∀ s, record.id = some s → s ≠ "" → nr.id = some s)
      ∧ (∀ c, record.created_at = some c → nr.created_at = some c) := by
  refine ⟨{ record with
              id := some (jsOrStr record.id uuid)
              created_at := some (record.created_at.getD nowTs) },
          ?_, rfl, rfl, rfl, ?_, ?_⟩
  · simp only [getEchoes]
    rw [(List.perm_insertionSort _ _).mem_iff]
    apply List.mem_filter.mpr
    constructor
    · simp [saveEchoRecord]
    · simp [huser]
  · intro s hs hne
    simp [jsOrStr, hs, hne]
  · intro c hc
    simp [hc]

/-- Witness for C8 on a fresh record saved into an empty store. -/
theorem save_then_list_roundtrip_witness :
    ∃ nr ∈ getEchoes ("u")
        (saveEchoRecord ⟨none, ("u"), ("a.mp3"), none, some 5, none⟩ []
          ("fresh") 0).2,
      nr.audio_url = (⟨none, ("u"), ("a.mp3"), none, some 5, none⟩
          : EchoRecord).audio_url
      ∧ nr.unlock_at = (⟨none, ("u"), ("a.mp3"), none, some 5, none⟩
          : EchoRecord).unlock_at
      ∧ nr.mood_tag = (⟨none, ("u"), ("a.mp3"), none, some 5, none⟩
          : EchoRecord).mood_tag
      ∧ (∀ s, (⟨none, ("u"), ("a.mp3"), none, some 5, none⟩
          : EchoRecord).id = some s → s ≠ "" → nr.id = some s)
      ∧ (∀ c, (⟨none, ("u"), ("a.mp3"), none, some 5, none⟩
          : EchoRecord).created_at = some c → nr.created_at = some c) :=
  save_then_list_roundtrip ⟨none, ("u"), ("a.mp3"), none, some 5, none⟩ []
    ("fresh") 0 ("u") rfl

/-- Counterexample to claim C9 as stated: an existing but empty (0-byte)
source file is not rejected — `uploadAudio` copies it into the audio
directory and returns the destination path, because the source validates
existence only and never checks the size. -/
theorem uploadAudio_copies_empty_source_cex :
    (uploadAudio [(("rec.m4a"), 0)] ("rec.m4a") ("out.m4a")).1
      = some (AUDIO_DIRECTORY ++ ("out.m4a"))
    ∧ (uploadAudio [(("rec.m4a"), 0)] ("rec.m4a") ("out.m4a")).2
      ≠ [(("rec.m4a"), 0)] := by
  constructor <;> decide

/-- Claim C9 (amended): `uploadAudio` validates that the source file exists
before any transfer — a missing source yields `null` with the filesystem
untouched — while an existing source of any size (including zero bytes) is
copied and its destination path returned. -/
theorem uploadAudio_validates_existence (fs : List (String × Nat))
    (uri fileName : String) :
    (fs.lookup uri = none → uploadAudio fs uri fileName = (none, fs))
    ∧ ∀ size, fs.lookup uri = some size →
        uploadAudio fs uri fileName
          = (some (AUDIO_DIRECTORY ++ fileName),
             fs ++ [(AUDIO_DIRECTORY ++ fileName, size)]) := by
  constructor
  · intro h
    unfold uploadAudio
    rw [h]
  · intro size h
    unfold uploadAudio
    rw [h]

/-- Witness for C9 on an empty filesystem. -/
theorem uploadAudio_validates_existence_witness :
    uploadAudio [] ("missing.m4a") ("out.m4a") = (none, []) :=
  (uploadAudio_validates_existence [] ("missing.m4a") ("out.m4a")).1 rfl

/-- Claim C10: the local save is append-only — it returns `true` and the
new store is exactly the old store, unchanged and in order, followed by
the one new record. -/
theorem saveEchoRecord_append_only (record : EchoRecord)
    (store : List EchoRecord) (uuid : String) (nowTs : Int) :
    (saveEchoRecord record store uuid nowTs).1 = true
    ∧ ∃ nr, (saveEchoRecord record store uuid nowTs).2 = store ++ [nr] :=
  ⟨rfl, ⟨{ record with
             id := some (jsOrStr record.id uuid)
             created_at := some (record.created_at.getD nowTs) }, rfl⟩⟩

end Echo
